import Mathlib

/-!
Shallow embedding of the `predictive_linuxops_pcp_aap` scripts:

* `src/ml_scripts/ml_trend.py` — linear trend + forecast pipeline,
* `src/matplot_graphs/scripts/plot_base_pcp_metric.py` — basic metric plotter,
* `src/matplot_graphs/scripts/plot_split_by_observed_predicted.py` — observed
  vs. predicted plotter.

Timestamps are modelled as natural numbers of seconds; metric values as
rationals.  A CSV cell is either a numeric value, a string, or a cell whose
text parses as a datetime (carrying the parsed timestamp).  Column dtype
detection (`pd.api.types.is_numeric_dtype` after `read_csv` inference) is
modelled as "every cell of the column is numeric".
-/

namespace PcpAap

/-- A CSV cell after `pd.read_csv`: a numeric value, a cell whose text parses
as a datetime (carrying the timestamp in seconds), or any other string. -/
inductive Cell where
  | num (q : ℚ)
  | time (t : ℕ)
  | str (s : String)
  deriving DecidableEq, Repr

/-- `pd.to_datetime` on a single cell: succeeds exactly on datetime cells. -/
def Cell.parseTime : Cell → Option ℕ
  | .time t => some t
  | _ => none

/-- `pd.to_numeric(..., errors="coerce")` on a single cell. -/
def Cell.parseNum : Cell → Option ℚ
  | .num q => some q
  | _ => none

/-- Whether a cell is numeric. -/
def Cell.isNum : Cell → Bool
  | .num _ => true
  | _ => false

/-- A named CSV column. -/
structure Col where
  name : String
  cells : List Cell
  deriving DecidableEq, Repr

/-- `pd.api.types.is_numeric_dtype` after `read_csv` type inference: the
column's dtype is numeric when every cell is numeric. -/
def Col.isNumeric (c : Col) : Bool := c.cells.all Cell.isNum

/-- An in-memory dataframe: the ordered list of its columns. -/
structure Frame where
  cols : List Col
  deriving DecidableEq, Repr

/-- `df.columns` as a list of names. -/
def Frame.names (df : Frame) : List String := df.cols.map Col.name

/-- `df[name]`: the cells of the first column with that name. -/
def Frame.col (df : Frame) (name : String) : List Cell :=
  match df.cols.find? (fun c => c.name = name) with
  | some c => c.cells
  | none => []

/-- Python truthiness of an optional string flag (`None` and `""` are falsy). -/
def truthy : Option String → Bool
  | some s => s ≠ ""
  | none => false

/-- Python `str.lower()`: lowercase every character. -/
def pyLower (s : String) : String := ⟨s.data.map Char.toLower⟩

/-- `{c.lower(): c for c in df.columns}[cand]`: a Python dict comprehension
keeps the last binding for a repeated key, so this is the last column name
whose lowercase form equals `cand`. -/
def lowerMapFind (names : List String) (cand : String) : Option String :=
  (names.filter (fun c => pyLower c = cand)).getLast?

/-- `detect_time_col` (identical in both plotting scripts): the forced name if
truthy and present; else the last column case-insensitively named `time`,
`timestamp`, `date` or `datetime`, tried in that order; else the first
column. -/
def detect_time_col (df : Frame) (forced : Option String) : String :=
  if truthy forced ∧ forced.getD "" ∈ df.names then forced.getD ""
  else
    match lowerMapFind df.names "time" with
    | some c => c
    | none =>
      match lowerMapFind df.names "timestamp" with
      | some c => c
      | none =>
        match lowerMapFind df.names "date" with
        | some c => c
        | none =>
          match lowerMapFind df.names "datetime" with
          | some c => c
          | none => df.names.headD ""

/-- The preferred metric names hard-coded in `pick_metric_col`. -/
def preferredMetricNames : List String :=
  ["ds389.cn.opscompleted", "ds389.cn.opsCompleted", "opscompleted"]

/-- `pick_metric_col` from `plot_base_pcp_metric.py`: the forced name if
truthy and present; else, among non-time numeric columns, a preferred
`ds389` name when present, otherwise the first one; `SystemExit` when no
numeric column exists. -/
def pick_metric_col (df : Frame) (time_col : String) (metric : Option String) :
    Except String String :=
  if truthy metric ∧ metric.getD "" ∈ df.names then .ok (metric.getD "")
  else
    let numeric_cols :=
      (df.cols.filter (fun c => c.name ≠ time_col ∧ c.isNumeric)).map Col.name
    match numeric_cols with
    | [] => .error "No numeric metric columns found. Pass --metric explicitly."
    | c :: _ =>
      match preferredMetricNames.find? (fun p => p ∈ numeric_cols) with
      | some p => .ok p
      | none => .ok c

/-- `detect_value_col` from `plot_split_by_observed_predicted.py`: the forced
name if truthy and present; else the first non-time numeric column;
`SystemExit` when none exists. -/
def detect_value_col (df : Frame) (time_col : String) (forced : Option String) :
    Except String String :=
  if truthy forced ∧ forced.getD "" ∈ df.names then .ok (forced.getD "")
  else
    match df.cols.find? (fun c => c.name ≠ time_col ∧ c.isNumeric) with
    | some c => .ok c.name
    | none => .error "No numeric value column found; pass --value-col."

/-- Result of the optional threshold ETA report in `ml_trend.py`. -/
inductive EtaResult where
  | unreachable
  | alreadyCrossed (ts : ℚ)
  | projected (ts : ℚ)
  deriving DecidableEq, Repr

/-- The ETA block of `ml_trend.py`: `slope == 0` reports unreachable;
otherwise the crossing time `t0 + (threshold - intercept)/slope` hours
(timestamps in rational seconds, `t0` the first and `tLast` the last resampled
timestamp); at or before `tLast` it is reported as already crossed. -/
def etaReport (slope intercept threshold : ℚ) (t0 tLast : ℚ) : EtaResult :=
  if slope = 0 then .unreachable
  else
    let x_eta_hours := (threshold - intercept) / slope
    let eta_ts := t0 + x_eta_hours * 3600
    if eta_ts ≤ tLast then .alreadyCrossed eta_ts else .projected eta_ts

/-- Python `int()` on a float: truncation toward zero, computed on the
reduced numerator and denominator. -/
def pyInt (q : ℚ) : ℤ :=
  if 0 ≤ q then (q.num.toNat / q.den : ℕ) else -(((-q).num.toNat / (-q).den : ℕ))

/-- `n_steps = max(int((horizon_hours * 3600) / step_seconds), 1)` from
`ml_trend.py` (`step_seconds` is the resample interval in seconds). -/
def n_steps (horizon_hours : ℕ) (step_seconds : ℚ) : ℕ :=
  max (pyInt ((horizon_hours * 3600 : ℚ) / step_seconds)).toNat 1

/-- The forecast length the spec describes:
`ceil(horizon_hours * 3600 / interval_seconds)`, minimum 1.  Stated from the
spec's words, for comparison with `n_steps`. -/
def n_steps_spec (horizon_hours : ℕ) (step_seconds : ℚ) : ℕ :=
  max (⌈(horizon_hours * 3600 : ℚ) / step_seconds⌉).toNat 1

/-! ### Cleaning: `df.sort_values("Time").drop_duplicates("Time")` -/

/-- `df.sort_values("Time")`: sort rows by timestamp.  Pandas' default
`kind='quicksort'` (numpy introsort) guarantees only the key order, not the
relative order of rows with equal timestamps, so an executable model must
pick one admissible outcome; this one uses `List.insertionSort`, which
coincides with numpy's behaviour on small arrays (introsort switches to
insertion sort below 16 elements).  Theorems about the cleaning step that
hold for every tie order quantify over an arbitrary timestamp-sorted
permutation of the input instead of relying on this choice. -/
def sortTime {α : Type} (rows : List (ℕ × α)) : List (ℕ × α) :=
  rows.insertionSort (fun a b => a.1 ≤ b.1)

/-- Helper for `dedupTime`: scan left to right keeping only rows whose
timestamp has not been seen yet. -/
def dedupTimeAux {α : Type} (seen : List ℕ) : List (ℕ × α) → List (ℕ × α)
  | [] => []
  | p :: rest =>
    if p.1 ∈ seen then dedupTimeAux seen rest
    else p :: dedupTimeAux (p.1 :: seen) rest

/-- `df.drop_duplicates("Time")` with the pandas default `keep="first"`: keep
the first row of each timestamp, in table order. -/
def dedupTime {α : Type} (rows : List (ℕ × α)) : List (ℕ × α) :=
  dedupTimeAux [] rows

/-- The cleaning step of `ml_trend.py` line 36: sort by time, then drop
duplicate timestamps. -/
def cleanRows {α : Type} (rows : List (ℕ × α)) : List (ℕ × α) :=
  dedupTime (sortTime rows)

/-! ### Resampling: `s.resample(interval).last().ffill()`

Pandas resamples with the default `origin="start_day"`: buckets are aligned to
midnight of the first timestamp's day.  The resampled index runs from the
bucket of the first sample to the bucket of the last sample, one label per
interval; `.last()` takes the last value falling in each bucket and `.ffill()`
carries the previous bucket's value into empty buckets. -/

/-- Midnight of the day containing `t` (seconds), the pandas
`origin="start_day"` resample origin. -/
def startDay (t : ℕ) : ℕ := 86400 * (t / 86400)

/-- The left edge of the resample bucket containing `t`, for origin `o` and
interval `Δ` seconds (requires `o ≤ t`). -/
def bucketOf (o Δ t : ℕ) : ℕ := o + Δ * ((t - o) / Δ)

/-- `.last()` within one bucket: the last value of the series falling in the
bucket labelled `g` (`none` when the bucket is empty). -/
def lastInBucket (o Δ : ℕ) (s : List (ℕ × ℚ)) (g : ℕ) : Option ℚ :=
  ((s.filter (fun p => bucketOf o Δ p.1 = g)).map Prod.snd).getLast?

/-- Build `n` forward-filled buckets starting at label `g`: each bucket takes
the last value falling in it, or the previous bucket's value when empty. -/
def gridFill (o Δ : ℕ) (s : List (ℕ × ℚ)) : ℚ → ℕ → ℕ → List (ℕ × ℚ)
  | _, _, 0 => []
  | prev, g, n + 1 =>
    let v := (lastInBucket o Δ s g).getD prev
    (g, v) :: gridFill o Δ s v (g + Δ) n

/-- `s.resample(interval).last().ffill()` of `ml_trend.py` line 44, for a
series of (timestamp, value) samples and an interval of `Δ` seconds. -/
def resampleLF (Δ : ℕ) (s : List (ℕ × ℚ)) : List (ℕ × ℚ) :=
  match s with
  | [] => []
  | p :: rest =>
    let o := startDay p.1
    let b₁ := bucketOf o Δ p.1
    let bN := bucketOf o Δ (((p :: rest).getLastD p).1)
    gridFill o Δ (p :: rest) p.2 b₁ ((bN - b₁) / Δ + 1)

/-! ### Linear regression and the full trend pipeline -/

/-- Sum of a list of rationals. -/
def qsum (l : List ℚ) : ℚ := l.foldr (· + ·) 0

/-- Ordinary least-squares fit of `y = slope * x + intercept`
(`sklearn.linear_model.LinearRegression` on one feature), by the closed-form
normal equations. -/
def linFit (pts : List (ℚ × ℚ)) : ℚ × ℚ :=
  let n : ℚ := pts.length
  let sx := qsum (pts.map Prod.fst)
  let sy := qsum (pts.map Prod.snd)
  let sxx := qsum (pts.map (fun p => p.1 * p.1))
  let sxy := qsum (pts.map (fun p => p.1 * p.2))
  let d := n * sxx - sx * sx
  let slope := (n * sxy - sx * sy) / d
  (slope, (sy - slope * sx) / n)

/-- Output of a successful `ml_trend.py` run. -/
structure MlOut where
  slope : ℚ
  intercept : ℚ
  observed : List (ℕ × ℚ)
  predicted : List (ℚ × ℚ)
  eta : Option EtaResult
  deriving DecidableEq, Repr

/-- The forecast CSV written by `ml_trend.py`: observed rows (tagged
`"observed"`) followed by predicted rows (tagged `"predicted"`); times as
rational seconds. -/
def MlOut.outCsv (o : MlOut) : List (ℚ × ℚ × String) :=
  o.observed.map (fun p => ((p.1 : ℚ), p.2, "observed")) ++
    o.predicted.map (fun p => (p.1, p.2, "predicted"))

/-- Lines 34-40 of `ml_trend.py`: parse the `Time` column (`errors="coerce"`,
unparseable rows dropped), sort by time, drop duplicate timestamps, then
coerce the metric column to numeric and drop the non-numeric rows. -/
def mlClean (df : Frame) (metric : String) : List (ℕ × ℚ) :=
  (cleanRows (((df.col "Time").zip (df.col metric)).filterMap
      (fun p => (p.1.parseTime).map (fun t => (t, p.2))))).filterMap
    (fun p => (p.2.parseNum).map (fun v => (p.1, v)))

/-- Lines 52-77 of `ml_trend.py` on the resampled series `s`: regression over
elapsed hours since the first sample, forecast of `n_steps` future grid
points, and the optional threshold ETA. -/
def mlFitForecast (s : List (ℕ × ℚ)) (interval horizon_hours : ℕ)
    (threshold : Option ℚ) : MlOut :=
  let t0 : ℕ := (s.headD (0, 0)).1
  let fit := linFit (s.map (fun p => (((p.1 : ℚ) - t0) / 3600, p.2)))
  let slope := fit.1
  let intercept := fit.2
  let tLast : ℕ := (s.getLastD (0, 0)).1
  let future := (List.range (n_steps horizon_hours (interval : ℚ))).map
    (fun k => ((tLast + interval * (k + 1) : ℕ) : ℚ))
  { slope := slope, intercept := intercept, observed := s,
    predicted := future.map (fun t => (t, slope * ((t - t0) / 3600) + intercept)),
    eta := threshold.map (fun th => etaReport slope intercept th t0 tLast) }

/-- The `main` pipeline of `ml_trend.py` on an already-loaded dataframe:
column checks, cleaning, resample + forward-fill, minimum-length check, OLS
fit and forecast.  `interval` is the resample interval in whole seconds;
`interval = 0` stands for an unparseable interval string.  An `Except.error`
models `fail`: the process exits nonzero before writing any output file. -/
def mlTrendRun (df : Frame) (metric : String) (interval : ℕ)
    (horizon_hours : ℕ) (threshold : Option ℚ) : Except String MlOut :=
  if "Time" ∉ df.names then
    .error "CSV must have a 'Time' column."
  else if metric ∉ df.names then
    .error ("CSV does not contain metric column " ++ metric ++ ".")
  else if mlClean df metric = [] then
    .error "No numeric data points found after cleaning."
  else if interval = 0 then
    .error "Invalid interval."
  else if (resampleLF interval (mlClean df metric)).length < 3 then
    .error "Not enough points after resampling (need >= 3)."
  else
    .ok (mlFitForecast (resampleLF interval (mlClean df metric))
      interval horizon_hours threshold)

/-! ### The plotting scripts -/

/-- `pd.to_datetime(df[tcol])` with the default `errors="raise"` wrapped in
`try/except`: the whole column converts when every cell parses, otherwise the
column is left as-is. -/
def parseTimes (cells : List Cell) : Option (List ℕ) :=
  let ts := cells.filterMap Cell.parseTime
  if ts.length = cells.length then some ts else none

/-- Numeric reading of a cell (used once a column has numeric dtype). -/
def cellVal (c : Cell) : ℚ := (c.parseNum).getD 0

/-- `str(cell)`: Python string conversion of a cell value. -/
def cellStr : Cell → String
  | .str s => s
  | .num q => toString q
  | .time t => toString t

/-- The names of the non-time numeric columns of a frame, in column order
(the `numeric_cols` list of `pick_metric_col`). -/
def numericColNames (df : Frame) (time_col : String) : List String :=
  (df.cols.filter (fun c => c.name ≠ time_col ∧ c.isNumeric)).map Col.name

/-- Sum aggregation over one resample bucket (`.resample(...).sum()`; pandas
sums an empty bucket to 0). -/
def sumInBucket (o Δ : ℕ) (s : List (ℕ × ℚ)) (g : ℕ) : ℚ :=
  qsum ((s.filter (fun p => bucketOf o Δ p.1 = g)).map Prod.snd)

/-- Build `n` sum-aggregated buckets starting at label `g`. -/
def gridSum (o Δ : ℕ) (s : List (ℕ × ℚ)) : ℕ → ℕ → List (ℕ × ℚ)
  | _, 0 => []
  | g, n + 1 => (g, sumInBucket o Δ s g) :: gridSum o Δ s (g + Δ) n

/-- `s.resample(interval).sum()` of `plot_base_pcp_metric.py` line 95, with
the same `origin="start_day"` bucket grid as `resampleLF`. -/
def resampleSum (Δ : ℕ) (s : List (ℕ × ℚ)) : List (ℕ × ℚ) :=
  match s with
  | [] => []
  | p :: rest =>
    let o := startDay p.1
    let b₁ := bucketOf o Δ p.1
    let bN := bucketOf o Δ (((p :: rest).getLastD p).1)
    gridSum o Δ (p :: rest) b₁ ((bN - b₁) / Δ + 1)

/-- `s.rolling(w, min_periods=1).mean()`: trailing mean over the last `w`
samples (fewer at the start of the series). -/
def rollingMean (w : ℕ) (s : List (ℕ × ℚ)) : List (ℕ × ℚ) :=
  s.enum.map (fun q =>
    let window := ((s.take (q.1 + 1)).drop (q.1 + 1 - w)).map Prod.snd
    (q.2.1, qsum window / window.length))

/-- Command-line arguments of `plot_base_pcp_metric.py` that the model uses.
`resample = some 0` stands for an unparseable offset alias (which raises an
uncaught exception in the script). -/
structure PlotBaseArgs where
  time_col : Option String
  metric : Option String
  resample : Option ℕ
  rolling : Option ℕ
  deriving DecidableEq, Repr

/-- What a successful `plot_base_pcp_metric.py` run plotted and wrote. -/
structure PlotBaseOut where
  x : List Cell
  y : List Cell
  usedDatetime : Bool
  resampled : Bool
  rolled : Bool
  pngWritten : Bool
  deriving DecidableEq, Repr

/-- The `main` pipeline of `plot_base_pcp_metric.py` on an already-loaded
dataframe: detect the time column, try to parse it (non-fatally), pick the
metric column, and — only when the time column is datetime — apply the
optional resample (sum) and rolling-mean transforms; then write the PNG.
An `Except.error` models a nonzero exit with no image written. -/
def plotBaseRun (df : Frame) (args : PlotBaseArgs) : Except String PlotBaseOut :=
  let tcol := detect_time_col df args.time_col
  match pick_metric_col df tcol args.metric with
  | .error e => .error e
  | .ok vcol =>
    match parseTimes (df.col tcol) with
    | some ts =>
      if args.resample = some 0 then .error "ValueError: invalid frequency"
      else
        let s₀ := ts.zip ((df.col vcol).map cellVal)
        let s₁ := match args.resample with
          | some Δ => resampleSum Δ s₀
          | none => s₀
        let doRoll := match args.rolling with
          | some w => decide (1 < w)
          | none => false
        let s₂ := if doRoll then rollingMean (args.rolling.getD 0) s₁ else s₁
        .ok { x := s₂.map (fun p => Cell.time p.1),
              y := s₂.map (fun p => Cell.num p.2),
              usedDatetime := true, resampled := args.resample.isSome,
              rolled := doRoll, pngWritten := true }
    | none =>
      .ok { x := df.col tcol, y := df.col vcol, usedDatetime := false,
            resampled := false, rolled := false, pngWritten := true }

/-- Resample aggregation modes of `plot_split_by_observed_predicted.py`. -/
inductive Agg where
  | sum | mean | max | min
  deriving DecidableEq, Repr

/-- Aggregation of one bucket's values; an empty bucket is `NaN` (`none`) for
`mean`, `max` and `min`, and 0 for `sum`. -/
def aggBucket : Agg → List ℚ → Option ℚ
  | .sum, l => some (qsum l)
  | .mean, [] => none
  | .mean, l => some (qsum l / l.length)
  | .max, [] => none
  | .max, x :: xs => some (xs.foldl Max.max x)
  | .min, [] => none
  | .min, x :: xs => some (xs.foldl Min.min x)

/-- Build `n` aggregated buckets starting at label `g`. -/
def gridAgg (agg : Agg) (o Δ : ℕ) (s : List (ℕ × ℚ)) : ℕ → ℕ → List (ℕ × Option ℚ)
  | _, 0 => []
  | g, n + 1 =>
    (g, aggBucket agg ((s.filter (fun p => bucketOf o Δ p.1 = g)).map Prod.snd)) ::
      gridAgg agg o Δ s (g + Δ) n

/-- `s.resample(interval).<agg>()` of `plot_split_by_observed_predicted.py`
lines 234-241, on the `origin="start_day"` bucket grid. -/
def resampleAgg (agg : Agg) (Δ : ℕ) (s : List (ℕ × ℚ)) : List (ℕ × Option ℚ) :=
  match s with
  | [] => []
  | p :: rest =>
    let o := startDay p.1
    let b₁ := bucketOf o Δ p.1
    let bN := bucketOf o Δ (((p :: rest).getLastD p).1)
    gridAgg agg o Δ (p :: rest) b₁ ((bN - b₁) / Δ + 1)

/-- `s.rolling(w, min_periods=1).mean()` over a series with possible `NaN`
(`none`) entries: the mean of the non-`NaN` values of the trailing window,
`NaN` when the window has none. -/
def rollingMeanOpt (w : ℕ) (s : List (ℕ × Option ℚ)) : List (ℕ × Option ℚ) :=
  s.enum.map (fun q =>
    let window := (((s.take (q.1 + 1)).drop (q.1 + 1 - w)).map Prod.snd).reduceOption
    (q.2.1, if window = [] then none else some (qsum window / window.length)))

/-- One row of the split script's dataframe: time cell, value cell, label
cell. -/
structure SplitRow where
  time : Cell
  value : Cell
  label : Cell
  deriving DecidableEq, Repr

/-- `df[label_col].astype(str).str.lower() == str(predicted_label).lower()`
for one row. -/
def isPredRow (predicted_label : String) (r : SplitRow) : Bool :=
  pyLower (cellStr r.label) = pyLower predicted_label

/-- Lines 223-225 of `plot_split_by_observed_predicted.py`: split the rows
into the observed part (`~is_pred`) and the predicted part (`is_pred`). -/
def splitByLabel (rows : List SplitRow) (predicted_label : String) :
    List SplitRow × List SplitRow :=
  (rows.filter (fun r => ¬ isPredRow predicted_label r),
   rows.filter (isPredRow predicted_label))

/-- Command-line arguments of `plot_split_by_observed_predicted.py` that the
model uses; `resample = some 0` stands for an unparseable offset alias. -/
structure PlotSplitArgs where
  time_col : Option String
  value_col : Option String
  label_col : String
  predicted_label : String
  resample : Option ℕ
  resample_agg : Agg
  rolling : Option ℕ
  deriving DecidableEq, Repr

/-- What a successful `plot_split_by_observed_predicted.py` run plotted:
the processed observed and predicted series (time cell, possibly-`NaN`
value). -/
structure PlotSplitOut where
  obs : List (Cell × Option ℚ)
  pred : List (Cell × Option ℚ)
  usedDatetime : Bool
  resampled : Bool
  rolled : Bool
  pngWritten : Bool
  deriving DecidableEq, Repr

/-- The `process` closure of `plot_split_by_observed_predicted.py`: when the
time column is datetime, optionally resample with the chosen aggregation and
apply the rolling mean; otherwise return the raw series unchanged. -/
def processSplit (args : PlotSplitArgs) (datetimeOk : Bool)
    (xs : List Cell) (ys : List ℚ) : List (Cell × Option ℚ) :=
  if datetimeOk then
    let s₀ := (xs.filterMap Cell.parseTime).zip ys
    let s₁ : List (ℕ × Option ℚ) := match args.resample with
      | some Δ => resampleAgg args.resample_agg Δ s₀
      | none => s₀.map (fun p => (p.1, some p.2))
    let doRoll := match args.rolling with
      | some w => decide (1 < w)
      | none => false
    let s₂ := if doRoll then rollingMeanOpt (args.rolling.getD 0) s₁ else s₁
    s₂.map (fun p => (Cell.time p.1, p.2))
  else xs.zip (ys.map some)

/-- The `main` pipeline of `plot_split_by_observed_predicted.py` on an
already-loaded dataframe: detect and (non-fatally) parse the time column,
detect the value column, require the label column, split the rows by the
predicted label, process both parts, and write the PNG.  An `Except.error`
models a nonzero exit with no image written. -/
def plotSplitRun (df : Frame) (args : PlotSplitArgs) : Except String PlotSplitOut :=
  let tcol := detect_time_col df args.time_col
  let parsed := parseTimes (df.col tcol)
  let xcells := match parsed with
    | some ts => ts.map Cell.time
    | none => df.col tcol
  match detect_value_col df tcol args.value_col with
  | .error e => .error e
  | .ok vcol =>
    if args.label_col ∉ df.names then
      .error ("--label-col " ++ args.label_col ++ " not found in CSV columns")
    else if parsed.isSome ∧ args.resample = some 0 then
      .error "ValueError: invalid frequency"
    else
      let rows := (xcells.zip (df.col vcol)).zip (df.col args.label_col)
        |>.map (fun p => SplitRow.mk p.1.1 p.1.2 p.2)
      let parts := splitByLabel rows args.predicted_label
      let sObs := processSplit args parsed.isSome
        (parts.1.map SplitRow.time) (parts.1.map (fun r => cellVal r.value))
      let sPred := processSplit args parsed.isSome
        (parts.2.map SplitRow.time) (parts.2.map (fun r => cellVal r.value))
      .ok { obs := sObs, pred := sPred, usedDatetime := parsed.isSome,
            resampled := parsed.isSome && args.resample.isSome,
            rolled := parsed.isSome && (match args.rolling with
              | some w => decide (1 < w)
              | none => false),
            pngWritten := true }

/-! ### Auxiliary definitions and concrete frames used by the theorems -/

/-- An aligned grid series: values `vs` at timestamps `g, g + Δ, g + 2Δ, …`
(the shape of every resampled series). -/
def mkGrid (Δ : ℕ) : ℕ → List ℚ → List (ℕ × ℚ)
  | _, [] => []
  | g, v :: vs => (g, v) :: mkGrid Δ (g + Δ) vs

/-- The end-to-end example input: 10 one-minute-spaced rows of values 0..9
under columns `Time` and `ops`. -/
def c8Frame : Frame :=
  ⟨[⟨"Time", [.time 0, .time 60, .time 120, .time 180, .time 240, .time 300,
              .time 360, .time 420, .time 480, .time 540]⟩,
    ⟨"ops", [.num 0, .num 1, .num 2, .num 3, .num 4, .num 5,
             .num 6, .num 7, .num 8, .num 9]⟩]⟩

/-- The cleaned series of the end-to-end example. -/
def c8Series : List (ℕ × ℚ) :=
  [(0, 0), (60, 1), (120, 2), (180, 3), (240, 4),
   (300, 5), (360, 6), (420, 7), (480, 8), (540, 9)]

/-- A frame with a parseable `Time` column and one numeric column `cpu`. -/
def fallbackFrame : Frame :=
  ⟨[⟨"Time", [.time 0, .time 60, .time 120]⟩,
    ⟨"cpu", [.num 1, .num 2, .num 3]⟩]⟩

/-- A frame whose first numeric column `aaa` precedes the numeric column
`opscompleted` (one of the hard-coded preferred metric names). -/
def preferFrame : Frame :=
  ⟨[⟨"time", [.time 0]⟩, ⟨"aaa", [.num 1]⟩, ⟨"opscompleted", [.num 2]⟩]⟩

/-- A frame whose `Time` column does not parse as datetimes, with a numeric
column `cpu` and a label column `type`. -/
def rawTimeFrame : Frame :=
  ⟨[⟨"Time", [.str "noon-ish", .str "later"]⟩,
    ⟨"cpu", [.num 1, .num 2]⟩,
    ⟨"type", [.str "observed", .str "predicted"]⟩]⟩

/-- A frame whose only time-candidate column is `Datetime` (lowest-priority
candidate name). -/
def dtFrame : Frame :=
  ⟨[⟨"foo", [.num 1]⟩, ⟨"Datetime", [.time 0]⟩]⟩

end PcpAap

namespace PcpAap

/-! ## Theorems -/

/-- **C1.**  Threshold ETA calculation: with zero slope the threshold is
reported unreachable; with nonzero slope the reported ETA timestamp `ts`
satisfies `slope * hours-since-t0 + intercept = threshold`, and it is
reported as already crossed exactly when `ts` is at or before the last
observed timestamp, as the projected crossing time otherwise. -/
theorem C1_threshold_eta (slope intercept threshold t0 tLast : ℚ) :
    (slope = 0 → etaReport slope intercept threshold t0 tLast = .unreachable) ∧
    (slope ≠ 0 →
      ∃ ts, slope * ((ts - t0) / 3600) + intercept = threshold ∧
        (ts ≤ tLast → etaReport slope intercept threshold t0 tLast = .alreadyCrossed ts) ∧
        (tLast < ts → etaReport slope intercept threshold t0 tLast = .projected ts)) := by
  constructor
  · intro h
    simp [etaReport, h]
  · intro h
    refine ⟨t0 + (threshold - intercept) / slope * 3600, ?_, ?_, ?_⟩
    · field_simp
      ring
    · intro hle
      simp [etaReport, h, hle]
    · intro hlt
      simp [etaReport, h, not_le.mpr hlt]

/-- Witness for C1 at slope 60, intercept 0, threshold 20, `t0 = 0`,
`tLast = 540`. -/
theorem C1_threshold_eta_witness :
    (60 : ℚ) ≠ 0 ∧
    ∃ ts, (60 : ℚ) * ((ts - 0) / 3600) + 0 = 20 ∧
      (ts ≤ 540 → etaReport 60 0 20 0 540 = .alreadyCrossed ts) ∧
      (540 < ts → etaReport 60 0 20 0 540 = .projected ts) :=
  ⟨by norm_num, (C1_threshold_eta 60 0 20 0 540).2 (by norm_num)⟩

/-- Python `int()` truncation agrees with the floor on nonnegative
rationals. -/
theorem pyInt_eq_floor {q : ℚ} (h : 0 ≤ q) : pyInt q = ⌊q⌋ := by
  rw [pyInt, if_pos h, Rat.floor_def, Int.ofNat_tdiv,
    Int.toNat_of_nonneg (Rat.num_nonneg.mpr h)]
  exact Int.tdiv_eq_ediv (Rat.num_nonneg.mpr h) (Int.natCast_nonneg _)

/-- **C2 counterexample.**  With a 1-hour horizon and a 7-minute
(420-second) interval the code generates `int(3600/420) = 8` predicted
samples, while `ceil(3600/420) = 9`: the claimed forecast length is wrong
when the horizon is not an exact multiple of the interval. -/
theorem C2_counterexample : n_steps 1 420 = 8 ∧ n_steps_spec 1 420 = 9 := by
  have h9 : ⌈(60 : ℚ) / 7⌉ = 9 := by
    rw [Int.ceil_eq_iff]
    norm_num
  constructor
  · norm_num [n_steps, pyInt]
    decide
  · norm_num [n_steps_spec, h9]
    decide

/-- **C2 (amended).**  The number of predicted samples is
`max(floor(horizon_hours * 3600 / interval_seconds), 1)` — Python `int()`
truncates instead of taking the ceiling — it is always at least 1, and it
agrees with the spec's ceiling formula exactly when the interval divides the
horizon. -/
theorem C2_forecast_length (h : ℕ) (step : ℚ) (hstep : 0 < step) :
    n_steps h step = max (⌊(h * 3600 : ℚ) / step⌋).toNat 1 ∧
    1 ≤ n_steps h step ∧
    ∀ k : ℕ, (h * 3600 : ℚ) = step * k → n_steps h step = n_steps_spec h step := by
  have hq : (0 : ℚ) ≤ (h * 3600 : ℚ) / step := by
    apply div_nonneg _ hstep.le
    positivity
  refine ⟨?_, ?_, ?_⟩
  · rw [n_steps, pyInt_eq_floor hq]
  · exact le_max_right _ _
  · intro k hk
    have hs : (h * 3600 : ℚ) / step = k := by
      rw [hk, mul_comm, mul_div_assoc, div_self hstep.ne', mul_one]
    rw [n_steps, n_steps_spec, hs, pyInt_eq_floor (Nat.cast_nonneg k),
      Int.floor_natCast, Int.ceil_natCast]

/-- Witness for C2 (amended) at horizon 1 hour, interval 420 seconds. -/
theorem C2_forecast_length_witness :
    (0 : ℚ) < 420 ∧ n_steps 1 420 = max (⌊(1 * 3600 : ℚ) / 420⌋).toNat 1 :=
  ⟨by norm_num, (C2_forecast_length 1 420 (by norm_num)).1⟩

/-! ### Cleaning lemmas (C3) -/

/-- `find?` returns the head of the filtered list. -/
theorem find?_eq_head?_filter {α : Type} (p : α → Bool) (l : List α) :
    l.find? p = (l.filter p).head? := by
  induction l with
  | nil => rfl
  | cons a l ih =>
    by_cases h : p a = true
    · rw [List.find?_cons_of_pos _ h, List.filter_cons, if_pos h, List.head?_cons]
    · rw [List.find?_cons_of_neg _ h, List.filter_cons, if_neg h, ih]

/-- Membership in the deduplicated list: exactly the first row of each
timestamp not yet seen. -/
theorem dedupTimeAux_mem {α : Type} (seen : List ℕ) (l : List (ℕ × α))
    (t : ℕ) (v : α) :
    (t, v) ∈ dedupTimeAux seen l ↔
      t ∉ seen ∧ l.find? (fun p => p.1 == t) = some (t, v) := by
  induction l generalizing seen with
  | nil => simp [dedupTimeAux]
  | cons hd rest ih =>
    obtain ⟨tp, vp⟩ := hd
    by_cases hseen : tp ∈ seen
    · rw [show dedupTimeAux seen ((tp, vp) :: rest) = dedupTimeAux seen rest by
        simp [dedupTimeAux, hseen]]
      rw [ih]
      by_cases hts : t ∈ seen
      · simp [hts]
      · have hne : ¬(fun p : ℕ × α => p.1 == t) (tp, vp) = true := by
          simp only [beq_iff_eq]
          exact fun he => hts (he ▸ hseen)
        rw [@List.find?_cons_of_neg _ (fun p => p.1 == t) (tp, vp) rest hne]
    · rw [show dedupTimeAux seen ((tp, vp) :: rest) =
          (tp, vp) :: dedupTimeAux (tp :: seen) rest by
        simp [dedupTimeAux, hseen]]
      by_cases hte : tp = t
      · rw [@List.find?_cons_of_pos _ (fun p => p.1 == t) (tp, vp) rest (by simp [hte])]
        constructor
        · intro hmem
          rcases List.mem_cons.mp hmem with he | hm
          · exact ⟨hte ▸ hseen, by rw [← he]⟩
          · have h3 := (ih (tp :: seen)).mp hm
            exact absurd (List.mem_cons.mpr (Or.inl hte.symm)) h3.1
        · rintro ⟨hts, hsome⟩
          have h4 : (tp, vp) = (t, v) := Option.some_injective _ hsome
          exact List.mem_cons.mpr (Or.inl h4.symm)
      · rw [@List.find?_cons_of_neg _ (fun p => p.1 == t) (tp, vp) rest
          (by simpa using hte)]
        constructor
        · intro hmem
          rcases List.mem_cons.mp hmem with he | hm
          · exact absurd (congrArg Prod.fst he).symm hte
          · have h3 := (ih (tp :: seen)).mp hm
            exact ⟨fun hts => h3.1 (List.mem_cons_of_mem _ hts), h3.2⟩
        · rintro ⟨hts, hfind⟩
          refine List.mem_cons.mpr (Or.inr ((ih (tp :: seen)).mpr ⟨?_, hfind⟩))
          intro hmem
          rcases List.mem_cons.mp hmem with he | hm
          · exact hte he.symm
          · exact hts hm

/-- The deduplicated list has pairwise-distinct timestamps, none of them
previously seen. -/
theorem dedupTimeAux_keys_nodup {α : Type} (seen : List ℕ) (l : List (ℕ × α)) :
    ((dedupTimeAux seen l).map Prod.fst).Nodup ∧
      ∀ t ∈ (dedupTimeAux seen l).map Prod.fst, t ∉ seen := by
  induction l generalizing seen with
  | nil => simp [dedupTimeAux]
  | cons hd rest ih =>
    by_cases hseen : hd.1 ∈ seen
    · simpa [dedupTimeAux, hseen] using ih seen
    · have h2 := ih (hd.1 :: seen)
      simp only [dedupTimeAux, if_neg hseen, List.map_cons, List.nodup_cons]
      refine ⟨⟨?_, h2.1⟩, ?_⟩
      · intro hmem
        exact (h2.2 hd.1 hmem) (List.mem_cons_self _ _)
      · intro t htmem
        rcases List.mem_cons.mp htmem with he | hm
        · exact he ▸ hseen
        · exact fun hts => (h2.2 t hm) (List.mem_cons_of_mem _ hts)

/-- **C3 counterexample.**  Two rows with the same timestamp 0 and values 1
then 2: the cleaning step keeps `(0, 1)` — the first row in table order —
not the last row `(0, 2)` as claimed.  (On a 2-element array numpy's
introsort runs its stable insertion-sort branch, so the modelled sort matches
the program's tie order here.) -/
theorem C3_counterexample :
    cleanRows [((0 : ℕ), (1 : ℚ)), (0, 2)] = [(0, 1)] ∧
    ((0 : ℕ), (2 : ℚ)) ∉ cleanRows [((0 : ℕ), (1 : ℚ)), (0, 2)] := by
  have h : cleanRows [((0 : ℕ), (1 : ℚ)), (0, 2)] = [(0, 1)] := by
    norm_num [cleanRows, sortTime, dedupTime, dedupTimeAux,
      List.insertionSort, List.orderedInsert]
  refine ⟨h, ?_⟩
  rw [h]
  norm_num

/-- **C3 (amended).**  For every possible output of the sort — any
timestamp-ordered permutation of the input rows, which is all pandas'
default unstable quicksort guarantees — dropping duplicates keeps exactly
one row per timestamp: the kept timestamps are exactly the input's
timestamps, and every kept row is one of the input rows.  Which duplicate
survives depends on the sort's tie order (`keep="first"` applies to the
post-sort order), so "last write wins" in original table order is not what
the code does; on the counterexample input the first row survives. -/
theorem C3_dedup_one_per_timestamp (rows l : List (ℕ × ℚ))
    (hperm : l.Perm rows)
    (hsort : l.Pairwise (fun a b : ℕ × ℚ => a.1 ≤ b.1)) :
    ((dedupTime l).map Prod.fst).Nodup ∧
    (∀ t, t ∈ (dedupTime l).map Prod.fst ↔ t ∈ rows.map Prod.fst) ∧
    (∀ p, p ∈ dedupTime l → p ∈ rows) := by
  have hsub : ∀ p : ℕ × ℚ, p ∈ dedupTime l → p ∈ l := by
    intro p hp
    obtain ⟨t, v⟩ := p
    have h := (dedupTimeAux_mem [] l t v).mp hp
    exact List.mem_of_find?_eq_some h.2
  refine ⟨(dedupTimeAux_keys_nodup [] l).1, ?_, fun p hp => hperm.mem_iff.mp (hsub p hp)⟩
  intro t
  constructor
  · intro ht
    obtain ⟨p, hp, hfst⟩ := List.mem_map.mp ht
    exact List.mem_map.mpr ⟨p, hperm.mem_iff.mp (hsub p hp), hfst⟩
  · intro ht
    obtain ⟨p, hp, hfst⟩ := List.mem_map.mp ht
    have hpl : p ∈ l := hperm.mem_iff.mpr hp
    obtain ⟨p₀, hf⟩ : ∃ p₀, l.find? (fun q => q.1 == t) = some p₀ := by
      cases hf : l.find? (fun q => q.1 == t) with
      | some p₀ => exact ⟨p₀, rfl⟩
      | none =>
        rw [List.find?_eq_none] at hf
        exact absurd (by simp [hfst]) (hf p hpl)
    have hkey : p₀.1 = t := by simpa using List.find?_some hf
    obtain ⟨t₀, v₀⟩ := p₀
    have ht₀ : t₀ = t := hkey
    subst ht₀
    have hm : (t₀, v₀) ∈ dedupTime l :=
      (dedupTimeAux_mem [] l t₀ v₀).mpr ⟨List.not_mem_nil t₀, hf⟩
    exact List.mem_map.mpr ⟨(t₀, v₀), hm, rfl⟩

/-- Witness for C3 (amended) on the counterexample input, whose identity
permutation is timestamp-sorted. -/
theorem C3_dedup_one_per_timestamp_witness :
    ([((0 : ℕ), (1 : ℚ)), (0, 2)] : List (ℕ × ℚ)).Perm
      [((0 : ℕ), (1 : ℚ)), (0, 2)] ∧
    ([((0 : ℕ), (1 : ℚ)), (0, 2)] : List (ℕ × ℚ)).Pairwise
      (fun a b : ℕ × ℚ => a.1 ≤ b.1) ∧
    ((dedupTime [((0 : ℕ), (1 : ℚ)), (0, 2)]).map Prod.fst).Nodup :=
  ⟨List.Perm.refl _, by decide,
   (C3_dedup_one_per_timestamp [((0 : ℕ), (1 : ℚ)), (0, 2)]
     [((0 : ℕ), (1 : ℚ)), (0, 2)] (List.Perm.refl _) (by decide)).1⟩

/-! ### Resampling lemmas (C4) -/

/-- A bucket-aligned timestamp is its own bucket label. -/
theorem bucketOf_aligned {Δ : ℕ} (hΔ : 0 < Δ) (o m : ℕ) :
    bucketOf o Δ (o + Δ * m) = o + Δ * m := by
  rw [bucketOf, Nat.add_sub_cancel_left, Nat.mul_div_cancel_left m hΔ]

/-- Midnight of a day is at or before any time of that day. -/
theorem startDay_le (t : ℕ) : startDay t ≤ t := by
  rw [startDay]
  omega

/-- Any point between midnight of `t`'s day and `t` lies in the same day. -/
theorem startDay_eq_of_between {t b : ℕ} (h1 : startDay t ≤ b) (h2 : b ≤ t) :
    startDay b = startDay t := by
  simp only [startDay] at h1 ⊢
  omega

/-- Every `gridFill` output is a grid series of the right length. -/
theorem gridFill_eq_mkGrid (o Δ : ℕ) (s : List (ℕ × ℚ)) :
    ∀ (n g : ℕ) (prev : ℚ), ∃ vs : List ℚ, vs.length = n ∧
      gridFill o Δ s prev g n = mkGrid Δ g vs := by
  intro n
  induction n with
  | zero => exact fun g prev => ⟨[], rfl, rfl⟩
  | succ n ih =>
    intro g prev
    obtain ⟨vs, hl, he⟩ := ih (g + Δ) ((lastInBucket o Δ s g).getD prev)
    refine ⟨(lastInBucket o Δ s g).getD prev :: vs, by simp [hl], ?_⟩
    rw [show gridFill o Δ s prev g (n + 1) =
        (g, (lastInBucket o Δ s g).getD prev) ::
          gridFill o Δ s ((lastInBucket o Δ s g).getD prev) (g + Δ) n from rfl, he]
    rfl

/-- `mkGrid` unfolding with the base expressed as an offset count. -/
theorem mkGrid_cons_shift (Δ o q : ℕ) (v : ℚ) (vs : List ℚ) :
    mkGrid Δ (o + Δ * q) (v :: vs) =
      (o + Δ * q, v) :: mkGrid Δ (o + Δ * (q + 1)) vs := by
  rw [show mkGrid Δ (o + Δ * q) (v :: vs) =
      (o + Δ * q, v) :: mkGrid Δ (o + Δ * q + Δ) vs from rfl,
    show o + Δ * q + Δ = o + Δ * (q + 1) from by ring]

/-- A grid starting above bucket `j` has no row in bucket `j`. -/
theorem filter_mkGrid_lt (o : ℕ) {Δ : ℕ} (hΔ : 0 < Δ) (j : ℕ) :
    ∀ (vs : List ℚ) (q : ℕ), j < q →
      (mkGrid Δ (o + Δ * q) vs).filter
        (fun p => bucketOf o Δ p.1 = o + Δ * j) = [] := by
  intro vs
  induction vs with
  | nil => intro q _; rfl
  | cons v vs ih =>
    intro q hj
    rw [mkGrid_cons_shift, List.filter_cons, if_neg ?_, ih (q + 1) (by omega)]
    simp only [bucketOf_aligned hΔ, decide_eq_true_eq]
    intro he
    have : q = j := Nat.eq_of_mul_eq_mul_left hΔ (Nat.add_left_cancel he)
    omega

/-- Exactly one grid row lies in bucket `q + i`: the `i`-th one. -/
theorem filter_mkGrid_get (o : ℕ) {Δ : ℕ} (hΔ : 0 < Δ) :
    ∀ (vs : List ℚ) (q i : ℕ) (h : i < vs.length),
      (mkGrid Δ (o + Δ * q) vs).filter
          (fun p => bucketOf o Δ p.1 = o + Δ * (q + i)) =
        [(o + Δ * (q + i), vs[i])] := by
  intro vs
  induction vs with
  | nil =>
    intro q i h
    simp at h
  | cons v vs ih =>
    intro q i h
    rw [mkGrid_cons_shift, List.filter_cons]
    cases i with
    | zero =>
      simp only [Nat.add_zero]
      rw [if_pos (by simp [bucketOf_aligned hΔ]), filter_mkGrid_lt o hΔ q vs (q + 1) (by omega)]
      simp
    | succ i =>
      rw [if_neg ?_]
      · rw [show o + Δ * (q + (i + 1)) = o + Δ * ((q + 1) + i) from by ring,
          ih (q + 1) i (by simpa using h)]
        simp
      · simp only [bucketOf_aligned hΔ, decide_eq_true_eq]
        intro he
        have : q = q + (i + 1) := Nat.eq_of_mul_eq_mul_left hΔ (Nat.add_left_cancel he)
        omega

/-- `.last()` on a grid series returns the `i`-th value at bucket `q + i`. -/
theorem lastInBucket_mkGrid (o : ℕ) {Δ : ℕ} (hΔ : 0 < Δ) (vs : List ℚ)
    (q i : ℕ) (h : i < vs.length) :
    lastInBucket o Δ (mkGrid Δ (o + Δ * q) vs) (o + Δ * (q + i)) =
      some vs[i] := by
  rw [lastInBucket, filter_mkGrid_get o hΔ vs q i h]
  rfl

/-- Forward-filling a grid series over its own buckets reproduces it. -/
theorem gridFill_mkGrid (o : ℕ) {Δ : ℕ} (hΔ : 0 < Δ) (q₀ : ℕ) (vs₀ : List ℚ) :
    ∀ (n i : ℕ), n + i = vs₀.length → ∀ prev : ℚ,
      gridFill o Δ (mkGrid Δ (o + Δ * q₀) vs₀) prev (o + Δ * (q₀ + i)) n =
        mkGrid Δ (o + Δ * (q₀ + i)) (vs₀.drop i) := by
  intro n
  induction n with
  | zero =>
    intro i hi prev
    rw [show i = vs₀.length from by omega, List.drop_length]
    rfl
  | succ n ih =>
    intro i hi prev
    have hilen : i < vs₀.length := by omega
    rw [show gridFill o Δ (mkGrid Δ (o + Δ * q₀) vs₀) prev (o + Δ * (q₀ + i)) (n + 1) =
        (o + Δ * (q₀ + i),
          (lastInBucket o Δ (mkGrid Δ (o + Δ * q₀) vs₀) (o + Δ * (q₀ + i))).getD prev) ::
          gridFill o Δ (mkGrid Δ (o + Δ * q₀) vs₀)
            ((lastInBucket o Δ (mkGrid Δ (o + Δ * q₀) vs₀) (o + Δ * (q₀ + i))).getD prev)
            (o + Δ * (q₀ + i) + Δ) n from rfl]
    rw [lastInBucket_mkGrid o hΔ vs₀ q₀ i hilen, Option.getD_some,
      List.drop_eq_getElem_cons hilen,
      show mkGrid Δ (o + Δ * (q₀ + i)) (vs₀[i] :: vs₀.drop (i + 1)) =
        (o + Δ * (q₀ + i), vs₀[i]) :: mkGrid Δ (o + Δ * (q₀ + i) + Δ) (vs₀.drop (i + 1))
        from rfl]
    congr 1
    rw [show o + Δ * (q₀ + i) + Δ = o + Δ * (q₀ + (i + 1)) from by ring]
    exact ih (i + 1) (by omega) _

/-- Unfolding of `resampleLF` on a nonempty series. -/
theorem resampleLF_cons (Δ t : ℕ) (v : ℚ) (rest : List (ℕ × ℚ)) :
    resampleLF Δ ((t, v) :: rest) =
      gridFill (startDay t) Δ ((t, v) :: rest) v (bucketOf (startDay t) Δ t)
        ((bucketOf (startDay t) Δ ((((t, v) :: rest).getLastD (t, v)).1) -
          bucketOf (startDay t) Δ t) / Δ + 1) := rfl

/-- The first component of the last row of a nonempty grid series. -/
theorem mkGrid_getLastD_fst (Δ : ℕ) :
    ∀ (vs : List ℚ) (g : ℕ) (v : ℚ) (d : ℕ × ℚ),
      (((g, v) :: mkGrid Δ (g + Δ) vs).getLastD d).1 = g + Δ * vs.length := by
  intro vs
  induction vs with
  | nil => intro g v d; rfl
  | cons w vs ih =>
    intro g v d
    rw [show (g, v) :: mkGrid Δ (g + Δ) (w :: vs) =
        (g, v) :: (g + Δ, w) :: mkGrid Δ (g + Δ + Δ) vs from rfl,
      List.getLastD_cons, ih (g + Δ) w (g, v), List.length_cons]
    ring

/-- Re-resampling a nonempty grid series (whose base bucket lies in the same
day as its first timestamp) reproduces it. -/
theorem resampleLF_grid (o : ℕ) {Δ : ℕ} (hΔ : 0 < Δ) (q : ℕ) (v₀ : ℚ)
    (vs : List ℚ) (ho : startDay (o + Δ * q) = o) :
    resampleLF Δ (mkGrid Δ (o + Δ * q) (v₀ :: vs)) =
      mkGrid Δ (o + Δ * q) (v₀ :: vs) := by
  rw [show mkGrid Δ (o + Δ * q) (v₀ :: vs) =
      (o + Δ * q, v₀) :: mkGrid Δ (o + Δ * q + Δ) vs from rfl]
  rw [resampleLF_cons, ho, bucketOf_aligned hΔ o q, mkGrid_getLastD_fst,
    show o + Δ * q + Δ * vs.length = o + Δ * (q + vs.length) from by ring,
    bucketOf_aligned hΔ o (q + vs.length),
    show o + Δ * (q + vs.length) - (o + Δ * q) = Δ * vs.length from by
      rw [Nat.mul_add, ← Nat.add_assoc, Nat.add_sub_cancel_left],
    Nat.mul_div_cancel_left vs.length hΔ,
    show (o + Δ * q, v₀) :: mkGrid Δ (o + Δ * q + Δ) vs =
      mkGrid Δ (o + Δ * q) (v₀ :: vs) from rfl]
  have h := gridFill_mkGrid o hΔ q (v₀ :: vs) (vs.length + 1) 0 (by simp) v₀
  simpa using h

/-- **C4.**  Resample-last-then-forward-fill is idempotent: re-applying the
step at the same interval to its own output yields an identical series. -/
theorem C4_resample_idempotent (Δ : ℕ) (hΔ : 0 < Δ) (s : List (ℕ × ℚ)) :
    resampleLF Δ (resampleLF Δ s) = resampleLF Δ s := by
  cases s with
  | nil => rfl
  | cons p rest =>
    obtain ⟨t, v⟩ := p
    rw [resampleLF_cons]
    obtain ⟨vs, hlen, hg⟩ := gridFill_eq_mkGrid (startDay t) Δ ((t, v) :: rest)
      ((bucketOf (startDay t) Δ ((((t, v) :: rest).getLastD (t, v)).1) -
        bucketOf (startDay t) Δ t) / Δ + 1) (bucketOf (startDay t) Δ t) v
    rw [hg]
    cases vs with
    | nil => simp at hlen
    | cons v₀ vs =>
      rw [show bucketOf (startDay t) Δ t =
          startDay t + Δ * ((t - startDay t) / Δ) from rfl]
      have hdm : Δ * ((t - startDay t) / Δ) ≤ t - startDay t := by
        rw [Nat.mul_comm]
        exact Nat.div_mul_le_self _ _
      have h2 : startDay t + Δ * ((t - startDay t) / Δ) ≤ t :=
        calc startDay t + Δ * ((t - startDay t) / Δ)
            ≤ startDay t + (t - startDay t) := Nat.add_le_add_left hdm _
          _ = t := Nat.add_sub_cancel' (startDay_le t)
      exact resampleLF_grid (startDay t) hΔ ((t - startDay t) / Δ) v₀ vs
        (startDay_eq_of_between (Nat.le_add_right _ _) h2)

/-- Witness for C4 at interval 60 on a two-sample series. -/
theorem C4_resample_idempotent_witness :
    0 < 60 ∧ resampleLF 60 (resampleLF 60 [(10, (5 : ℚ)), (200, 7)]) =
      resampleLF 60 [(10, (5 : ℚ)), (200, 7)] :=
  ⟨by norm_num, C4_resample_idempotent 60 (by norm_num) [(10, (5 : ℚ)), (200, 7)]⟩

/-! ### Column resolution (C7, C6, C5) -/

/-- The last element of a list is a member. -/
theorem mem_of_getLast? {α : Type} : ∀ {l : List α} {a : α},
    l.getLast? = some a → a ∈ l
  | [], a, h => by simp at h
  | [b], a, h => by
    rw [List.getLast?_singleton] at h
    exact (Option.some_injective _ h) ▸ List.mem_singleton_self b
  | b :: c :: l, a, h => by
    rw [List.getLast?_cons_cons] at h
    exact List.mem_cons_of_mem _ (mem_of_getLast? h)

/-- If no column lowercases to `cand`, the dict-comprehension lookup
misses. -/
theorem lowerMapFind_eq_none (names : List String) (cand : String)
    (h : ∀ c ∈ names, pyLower c ≠ cand) : lowerMapFind names cand = none := by
  rw [lowerMapFind,
    List.filter_eq_nil_iff.mpr (fun a ha => by simp [h a ha])]
  rfl

/-- If some column lowercases to `cand`, the dict-comprehension lookup
returns a member column lowercasing to `cand`. -/
theorem lowerMapFind_eq_some (names : List String) (cand : String)
    (h : ∃ c ∈ names, pyLower c = cand) :
    ∃ c₀, lowerMapFind names cand = some c₀ ∧ c₀ ∈ names ∧ pyLower c₀ = cand := by
  obtain ⟨c, hc, hlc⟩ := h
  have hne : names.filter (fun x => pyLower x = cand) ≠ [] := by
    intro h0
    rw [List.filter_eq_nil_iff] at h0
    exact h0 c hc (by simp [hlc])
  have hsome : (lowerMapFind names cand).isSome := by
    rw [lowerMapFind]
    exact List.getLast?_isSome.mpr hne
  obtain ⟨c₀, hc₀⟩ := Option.isSome_iff_exists.mp hsome
  have hmem : c₀ ∈ names.filter (fun x => pyLower x = cand) :=
    mem_of_getLast? (by rw [lowerMapFind] at hc₀; exact hc₀)
  rw [List.mem_filter] at hmem
  exact ⟨c₀, hc₀, hmem.1, by simpa using hmem.2⟩

/-- **C7.**  Time-column resolution: a truthy forced name that is a valid
column is returned as-is; otherwise the candidates `time`, `timestamp`,
`date`, `datetime` are tried case-insensitively in that priority order —
when some column matches `time` the returned column is a member matching
`time`, when none matches `time` but some matches `timestamp` the returned
column matches `timestamp`, likewise for `date` and then `datetime` — and
when no column matches any candidate, the first column is returned. -/
theorem C7_time_col_resolution (df : Frame) (forced : Option String) :
    (∀ f, forced = some f → f ≠ "" → f ∈ df.names →
      detect_time_col df forced = f) ∧
    (¬ (truthy forced ∧ forced.getD "" ∈ df.names) →
      (∃ c ∈ df.names, pyLower c = "time") →
      detect_time_col df forced ∈ df.names ∧
        pyLower (detect_time_col df forced) = "time") ∧
    (¬ (truthy forced ∧ forced.getD "" ∈ df.names) →
      (∀ c ∈ df.names, pyLower c ≠ "time" ∧ pyLower c ≠ "timestamp" ∧
        pyLower c ≠ "date" ∧ pyLower c ≠ "datetime") →
      detect_time_col df forced = df.names.headD "") ∧
    (¬ (truthy forced ∧ forced.getD "" ∈ df.names) →
      (∀ c ∈ df.names, pyLower c ≠ "time") →
      (∃ c ∈ df.names, pyLower c = "timestamp") →
      detect_time_col df forced ∈ df.names ∧
        pyLower (detect_time_col df forced) = "timestamp") ∧
    (¬ (truthy forced ∧ forced.getD "" ∈ df.names) →
      (∀ c ∈ df.names, pyLower c ≠ "time" ∧ pyLower c ≠ "timestamp") →
      (∃ c ∈ df.names, pyLower c = "date") →
      detect_time_col df forced ∈ df.names ∧
        pyLower (detect_time_col df forced) = "date") ∧
    (¬ (truthy forced ∧ forced.getD "" ∈ df.names) →
      (∀ c ∈ df.names, pyLower c ≠ "time" ∧ pyLower c ≠ "timestamp" ∧
        pyLower c ≠ "date") →
      (∃ c ∈ df.names, pyLower c = "datetime") →
      detect_time_col df forced ∈ df.names ∧
        pyLower (detect_time_col df forced) = "datetime") := by
  refine ⟨?_, ?_, ?_, ?_, ?_, ?_⟩
  · intro f hf hne hmem
    subst hf
    simp [detect_time_col, truthy, hne, hmem]
  · intro hnv hex
    rw [detect_time_col, if_neg hnv]
    obtain ⟨c₀, hc₀, hmem, hlc⟩ := lowerMapFind_eq_some df.names "time" hex
    rw [hc₀]
    exact ⟨hmem, hlc⟩
  · intro hnv hall
    rw [detect_time_col, if_neg hnv,
      lowerMapFind_eq_none _ _ (fun c hc => (hall c hc).1),
      lowerMapFind_eq_none _ _ (fun c hc => (hall c hc).2.1),
      lowerMapFind_eq_none _ _ (fun c hc => (hall c hc).2.2.1),
      lowerMapFind_eq_none _ _ (fun c hc => (hall c hc).2.2.2)]
  · intro hnv ht hex
    rw [detect_time_col, if_neg hnv, lowerMapFind_eq_none _ _ ht]
    obtain ⟨c₀, hc₀, hmem, hlc⟩ := lowerMapFind_eq_some df.names "timestamp" hex
    rw [hc₀]
    exact ⟨hmem, hlc⟩
  · intro hnv hall hex
    rw [detect_time_col, if_neg hnv,
      lowerMapFind_eq_none _ _ (fun c hc => (hall c hc).1),
      lowerMapFind_eq_none _ _ (fun c hc => (hall c hc).2)]
    obtain ⟨c₀, hc₀, hmem, hlc⟩ := lowerMapFind_eq_some df.names "date" hex
    rw [hc₀]
    exact ⟨hmem, hlc⟩
  · intro hnv hall hex
    rw [detect_time_col, if_neg hnv,
      lowerMapFind_eq_none _ _ (fun c hc => (hall c hc).1),
      lowerMapFind_eq_none _ _ (fun c hc => (hall c hc).2.1),
      lowerMapFind_eq_none _ _ (fun c hc => (hall c hc).2.2)]
    obtain ⟨c₀, hc₀, hmem, hlc⟩ := lowerMapFind_eq_some df.names "datetime" hex
    rw [hc₀]
    exact ⟨hmem, hlc⟩

/-- Witness for C7: a frame whose `Time` column matches case-insensitively,
and a frame `["foo", "Datetime"]` whose only candidate is the
lowest-priority `datetime`. -/
theorem C7_time_col_resolution_witness :
    (¬ (truthy none ∧ (none : Option String).getD "" ∈ rawTimeFrame.names) ∧
     (∃ c ∈ rawTimeFrame.names, pyLower c = "time") ∧
     detect_time_col rawTimeFrame none ∈ rawTimeFrame.names ∧
     pyLower (detect_time_col rawTimeFrame none) = "time") ∧
    ((∀ c ∈ dtFrame.names, pyLower c ≠ "time" ∧ pyLower c ≠ "timestamp" ∧
        pyLower c ≠ "date") ∧
     (∃ c ∈ dtFrame.names, pyLower c = "datetime") ∧
     detect_time_col dtFrame none ∈ dtFrame.names ∧
     pyLower (detect_time_col dtFrame none) = "datetime") := by
  have h1 : ¬ (truthy none ∧ (none : Option String).getD "" ∈ rawTimeFrame.names) := by
    simp [truthy]
  have h2 : ∃ c ∈ rawTimeFrame.names, pyLower c = "time" :=
    ⟨"Time", by simp [rawTimeFrame, Frame.names], by decide⟩
  have h3 : ¬ (truthy none ∧ (none : Option String).getD "" ∈ dtFrame.names) := by
    simp [truthy]
  have h4 : ∀ c ∈ dtFrame.names, pyLower c ≠ "time" ∧ pyLower c ≠ "timestamp" ∧
      pyLower c ≠ "date" := by decide
  have h5 : ∃ c ∈ dtFrame.names, pyLower c = "datetime" :=
    ⟨"Datetime", by simp [dtFrame, Frame.names], by decide⟩
  exact ⟨⟨h1, h2, (C7_time_col_resolution rawTimeFrame none).2.1 h1 h2⟩,
    ⟨h4, h5, (C7_time_col_resolution dtFrame none).2.2.2.2.2 h3 h4 h5⟩⟩

/-- **C9.**  The observed/predicted split is a total case-insensitive
partition: a row is predicted exactly when its stringified label lowercases
to the lowercased predicted label, every other row is observed, and each
row's multiplicity is preserved across the two parts. -/
theorem C9_label_split (rows : List SplitRow) (plabel : String) :
    (∀ r, r ∈ (splitByLabel rows plabel).2 ↔
      r ∈ rows ∧ pyLower (cellStr r.label) = pyLower plabel) ∧
    (∀ r, r ∈ (splitByLabel rows plabel).1 ↔
      r ∈ rows ∧ ¬ pyLower (cellStr r.label) = pyLower plabel) ∧
    (∀ r, (splitByLabel rows plabel).1.count r +
      (splitByLabel rows plabel).2.count r = rows.count r) := by
  refine ⟨fun r => ?_, fun r => ?_, fun r => ?_⟩
  · simp [splitByLabel, List.mem_filter, isPredRow]
  · simp [splitByLabel, List.mem_filter, isPredRow]
  · by_cases hp : isPredRow plabel r = true
    · rw [splitByLabel]
      rw [List.count_filter hp,
        List.count_eq_zero.mpr (by simp [List.mem_filter, hp]), Nat.zero_add]
    · simp only [splitByLabel]
      have h2 : List.count r (List.filter (isPredRow plabel) rows) = 0 := by
        rw [List.count_eq_zero]
        simp [List.mem_filter, hp]
      rw [h2, Nat.add_zero]
      apply List.count_filter
      simp [hp]


/-- **C6 counterexample.**  On a frame whose first numeric non-time column is
`aaa` but which also has a numeric column `opscompleted`, the base plotter's
`pick_metric_col` returns the preferred name `opscompleted`, not the first
numeric column `aaa` that the split plotter's `detect_value_col` returns. -/
theorem C6_counterexample :
    pick_metric_col preferFrame "time" none = .ok "opscompleted" ∧
    detect_value_col preferFrame "time" none = .ok "aaa" ∧
    "opscompleted" ≠ "aaa" := by
  refine ⟨rfl, rfl, by decide⟩

/-- **C6 (amended).**  A truthy valid forced name is returned by both
resolvers; `detect_value_col` otherwise returns the first non-time numeric
column; `pick_metric_col` otherwise prefers a hard-coded `ds389` name among
the numeric columns and only falls back to the first numeric column when no
preferred name is present; both fail exactly when no non-time numeric column
exists. -/
theorem C6_metric_col_resolution (df : Frame) (tcol : String) :
    (∀ f, f ≠ "" → f ∈ df.names →
      pick_metric_col df tcol (some f) = .ok f ∧
      detect_value_col df tcol (some f) = .ok f) ∧
    (detect_value_col df tcol none =
      match (df.cols.filter (fun c => c.name ≠ tcol ∧ c.isNumeric)).head? with
      | some c => .ok c.name
      | none => .error "No numeric value column found; pass --value-col.") ∧
    (numericColNames df tcol ≠ [] →
      (∀ p ∈ preferredMetricNames, p ∉ numericColNames df tcol) →
      pick_metric_col df tcol none = detect_value_col df tcol none) ∧
    (∀ p, preferredMetricNames.find? (fun q => q ∈ numericColNames df tcol) = some p →
      pick_metric_col df tcol none = .ok p) ∧
    (numericColNames df tcol = [] →
      pick_metric_col df tcol none =
        .error "No numeric metric columns found. Pass --metric explicitly." ∧
      detect_value_col df tcol none =
        .error "No numeric value column found; pass --value-col.") := by
  refine ⟨?_, ?_, ?_, ?_, ?_⟩
  · intro f hne hmem
    constructor
    · simp [pick_metric_col, truthy, hne, hmem]
    · simp [detect_value_col, truthy, hne, hmem]
  · rw [detect_value_col, if_neg (by simp [truthy]),
      find?_eq_head?_filter]
  · intro hne0 hpref
    have hfind : preferredMetricNames.find?
        (fun q => q ∈ numericColNames df tcol) = none :=
      List.find?_eq_none.mpr (fun p hp => by simpa using hpref p hp)
    rw [numericColNames] at hfind
    rw [pick_metric_col, detect_value_col, if_neg (by simp [truthy]),
      if_neg (by simp [truthy]), find?_eq_head?_filter]
    cases hL : df.cols.filter (fun c => c.name ≠ tcol ∧ c.isNumeric) with
    | nil => exact absurd (by rw [numericColNames, hL]; rfl) hne0
    | cons c rest =>
      simp only [hL, List.map_cons] at hfind ⊢
      rw [hfind]
      rfl
  · intro p hp
    rw [numericColNames] at hp
    have hne : (df.cols.filter (fun c => c.name ≠ tcol ∧ c.isNumeric)).map Col.name ≠ [] := by
      intro h0
      rw [h0] at hp
      have := List.find?_some hp
      simp at this
    rw [pick_metric_col, if_neg (by simp [truthy])]
    cases h : (df.cols.filter (fun c => c.name ≠ tcol ∧ c.isNumeric)).map Col.name with
    | nil => exact absurd h hne
    | cons c rest =>
      rw [h] at hp
      simp only [hp]
  · intro hnil
    rw [numericColNames] at hnil
    have hfil : df.cols.filter (fun c => c.name ≠ tcol ∧ c.isNumeric) = [] :=
      List.map_eq_nil_iff.mp hnil
    constructor
    · rw [pick_metric_col, if_neg (by simp [truthy]), hfil]
      rfl
    · rw [detect_value_col, if_neg (by simp [truthy]), find?_eq_head?_filter, hfil]
      rfl

/-- Witness for C6 (amended): on the preference frame the preferred-name
branch fires and returns `opscompleted`. -/
theorem C6_metric_col_resolution_witness :
    preferredMetricNames.find?
      (fun q => q ∈ numericColNames preferFrame "time") = some "opscompleted" ∧
    pick_metric_col preferFrame "time" none = .ok "opscompleted" := by
  have h : preferredMetricNames.find?
      (fun q => q ∈ numericColNames preferFrame "time") = some "opscompleted" := by
    rfl
  exact ⟨h, (C6_metric_col_resolution preferFrame "time").2.2.2.1 "opscompleted" h⟩

/-- **C5 counterexample.**  Passing the nonexistent metric name `nope` to the
base plotting script on a CSV with a numeric `cpu` column is not fatal: the
resolver silently falls back to `cpu` and the script still writes its PNG. -/
theorem C5_counterexample :
    pick_metric_col fallbackFrame "Time" (some "nope") = .ok "cpu" ∧
    (plotBaseRun fallbackFrame ⟨none, some "nope", none, none⟩).toOption.map
      (fun o => o.pngWritten) = some true := by
  exact ⟨rfl, rfl⟩

/-- **C5 (amended).**  In the trend script a missing metric column is a fatal
error before any output is written; in the plotting scripts an invalid forced
metric/value name silently falls back to auto-detection, which succeeds (and
the image is written) exactly when a non-time numeric column exists. -/
theorem C5_missing_metric_column (df : Frame) (metric : String)
    (interval horizon : ℕ) (thr : Option ℚ) (tcol m : String) :
    (metric ∉ df.names → ∃ e, mlTrendRun df metric interval horizon thr = .error e) ∧
    (m ∉ df.names →
      pick_metric_col df tcol (some m) = pick_metric_col df tcol none ∧
      detect_value_col df tcol (some m) = detect_value_col df tcol none) ∧
    (m ∉ df.names →
      ((∃ c, pick_metric_col df tcol (some m) = .ok c) ↔
        numericColNames df tcol ≠ [])) := by
  refine ⟨?_, ?_, ?_⟩
  · intro hm
    by_cases hT : "Time" ∉ df.names
    · exact ⟨_, by rw [mlTrendRun, if_pos hT]⟩
    · exact ⟨_, by rw [mlTrendRun, if_neg hT, if_pos hm]⟩
  · intro hm
    constructor
    · simp [pick_metric_col, truthy, hm]
    · simp [detect_value_col, truthy, hm]
  · intro hm
    rw [numericColNames]
    rw [show pick_metric_col df tcol (some m) = pick_metric_col df tcol none from by
      simp [pick_metric_col, truthy, hm]]
    rw [pick_metric_col, if_neg (by simp [truthy])]
    cases h : (df.cols.filter (fun c => c.name ≠ tcol ∧ c.isNumeric)).map Col.name with
    | nil => simp
    | cons c rest =>
      simp only [h]
      constructor
      · intro _
        exact List.cons_ne_nil c rest
      · intro _
        cases hf : preferredMetricNames.find? (fun p => p ∈ c :: rest) with
        | none => exact ⟨c, by simp [hf]⟩
        | some p => exact ⟨p, by simp [hf]⟩

/-- Witness for C5 (amended): the trend script fails on the metric name
`nope` against the fallback frame. -/
theorem C5_missing_metric_column_witness :
    "nope" ∉ fallbackFrame.names ∧
    ∃ e, mlTrendRun fallbackFrame "nope" 60 1 none = .error e := by
  have h : "nope" ∉ fallbackFrame.names := by decide
  exact ⟨h,
    (C5_missing_metric_column fallbackFrame "nope" 60 1 none "Time" "nope").1 h⟩

/-- Witness for C9: a row labelled `Predicted` is predicted under the flag
value `predicted`, case-insensitively. -/
theorem C9_label_split_witness :
    SplitRow.mk (Cell.str "t") (Cell.num 1) (Cell.str "Predicted") ∈
      (splitByLabel [SplitRow.mk (Cell.str "t") (Cell.num 1) (Cell.str "Predicted")]
        "predicted").2 :=
  ((C9_label_split [SplitRow.mk (Cell.str "t") (Cell.num 1) (Cell.str "Predicted")]
      "predicted").1 _).mpr ⟨List.mem_singleton_self _, by decide⟩

/-! ### End-to-end example (C8) -/

/-- `mlTrendRun` on valid input reduces to fit-and-forecast over the cleaned,
resampled series. -/
theorem mlTrendRun_ok (df : Frame) (metric : String) (interval horizon : ℕ)
    (thr : Option ℚ) (hT : "Time" ∈ df.names) (hM : metric ∈ df.names)
    (hs : ¬ mlClean df metric = []) (hi : ¬ interval = 0)
    (hlen : ¬ (resampleLF interval (mlClean df metric)).length < 3) :
    mlTrendRun df metric interval horizon thr =
      .ok (mlFitForecast (resampleLF interval (mlClean df metric))
        interval horizon thr) := by
  rw [mlTrendRun, if_neg (by simpa using hT), if_neg (by simpa using hM),
    if_neg hs, if_neg hi, if_neg hlen]

/-- Witness for `mlTrendRun_ok` on the end-to-end example frame. -/
theorem mlTrendRun_ok_witness :
    mlTrendRun c8Frame "ops" 60 1 none =
      .ok (mlFitForecast (resampleLF 60 (mlClean c8Frame "ops")) 60 1 none) :=
  mlTrendRun_ok c8Frame "ops" 60 1 none (by decide) (by decide)
    (by decide) (by decide) (by decide)

/-- Mapping a constant function yields a replicated list. -/
theorem map_const_eq_replicate {α β : Type} (f : α → β) (b : β)
    (hf : ∀ x, f x = b) (l : List α) : l.map f = List.replicate l.length b := by
  induction l with
  | nil => rfl
  | cons a l ih => simp [hf a, ih, List.replicate]

/-- The label column of the forecast CSV: the observed labels followed by the
predicted labels. -/
theorem outCsv_labels (o : MlOut) :
    o.outCsv.map (fun r => r.2.2) =
      List.replicate o.observed.length "observed" ++
        List.replicate o.predicted.length "predicted" := by
  rw [MlOut.outCsv, List.map_append, List.map_map, List.map_map,
    map_const_eq_replicate ((fun r : ℚ × ℚ × String => r.2.2) ∘
      fun p : ℕ × ℚ => ((p.1 : ℚ), p.2, "observed")) "observed" (fun x => rfl),
    map_const_eq_replicate ((fun r : ℚ × ℚ × String => r.2.2) ∘
      fun p : ℚ × ℚ => (p.1, p.2, "predicted")) "predicted" (fun x => rfl)]

set_option maxRecDepth 10000

/-- **C8.**  End-to-end: on 10 one-minute-spaced rows of values 0..9 with
interval `1min` (60 s) and a 1-hour horizon, the run succeeds with slope
exactly 60 units/hour, intercept exactly 0, and a forecast CSV of 10 rows
labelled `observed` followed by 60 rows labelled `predicted`. -/
theorem C8_end_to_end :
    (mlTrendRun c8Frame "ops" 60 1 none).toOption.map
      (fun o => (o.slope, o.intercept, o.outCsv.map (fun r => r.2.2))) =
      some (60, 0, List.replicate 10 "observed" ++ List.replicate 60 "predicted") := by
  have hclean : mlClean c8Frame "ops" = c8Series := by
    norm_num [mlClean, c8Frame, Frame.col, Cell.parseTime, Cell.parseNum, cleanRows,
      sortTime, dedupTime, dedupTimeAux, List.insertionSort, List.orderedInsert,
      c8Series, List.filterMap_cons]
  have hres : resampleLF 60 c8Series = c8Series := by
    norm_num [resampleLF, c8Series, gridFill, lastInBucket, startDay, bucketOf,
      List.filter_cons]
  have hrun := mlTrendRun_ok c8Frame "ops" 60 1 none (by decide) (by decide)
    (by rw [hclean]; decide) (by decide) (by rw [hclean, hres]; decide)
  rw [hrun, hclean, hres]
  have hq : ((1 : ℕ) * 3600 : ℚ) / ((60 : ℕ) : ℚ) = 60 := by norm_num
  have hn : n_steps 1 ((60 : ℕ) : ℚ) = 60 := by
    rw [n_steps, hq, pyInt_eq_floor (by norm_num)]
    norm_num
    decide
  simp only [Except.toOption, Option.map_some', Option.some.injEq, Prod.mk.injEq]
  rw [outCsv_labels]
  refine ⟨?_, ?_, ?_⟩
  · norm_num [mlFitForecast, linFit, qsum, c8Series]
  · norm_num [mlFitForecast, linFit, qsum, c8Series]
  · simp only [mlFitForecast, List.length_map, List.length_range, hn]
    norm_num [c8Series]

/-! ### Unparseable time columns (C10) -/

/-- **C10.**  In both plotting scripts a time column that fails datetime
parsing is not fatal: the run still succeeds and writes its image, the
`--resample` and `--rolling` transforms are silently skipped, and the raw
values are plotted against the unparsed time column. -/
theorem C10_unparseable_time_nonfatal (df : Frame) (args : PlotBaseArgs)
    (args2 : PlotSplitArgs) (vcol vcol2 : String)
    (hp : parseTimes (df.col (detect_time_col df args.time_col)) = none)
    (hm : pick_metric_col df (detect_time_col df args.time_col) args.metric = .ok vcol)
    (hp2 : parseTimes (df.col (detect_time_col df args2.time_col)) = none)
    (hv : detect_value_col df (detect_time_col df args2.time_col) args2.value_col = .ok vcol2)
    (hl : args2.label_col ∈ df.names) :
    plotBaseRun df args =
      .ok { x := df.col (detect_time_col df args.time_col), y := df.col vcol,
            usedDatetime := false, resampled := false, rolled := false,
            pngWritten := true } ∧
    (let rows := (((df.col (detect_time_col df args2.time_col)).zip (df.col vcol2)).zip
        (df.col args2.label_col)).map (fun p => SplitRow.mk p.1.1 p.1.2 p.2)
     plotSplitRun df args2 = .ok
       { obs := ((splitByLabel rows args2.predicted_label).1.map SplitRow.time).zip
           (((splitByLabel rows args2.predicted_label).1.map
             (fun r => cellVal r.value)).map some),
         pred := ((splitByLabel rows args2.predicted_label).2.map SplitRow.time).zip
           (((splitByLabel rows args2.predicted_label).2.map
             (fun r => cellVal r.value)).map some),
         usedDatetime := false, resampled := false, rolled := false,
         pngWritten := true }) := by
  constructor
  · rw [plotBaseRun]
    simp only [hm, hp]
  · rw [plotSplitRun]
    simp only [hp2, hv, processSplit, Option.isSome_none, Bool.false_and,
      Bool.false_eq_true, if_false, if_neg (not_not_intro hl)]
    simp [hl]

/-- Witness for C10: a frame with an unparseable `Time` column still plots,
with resample and rolling requested but skipped. -/
theorem C10_unparseable_time_nonfatal_witness :
    parseTimes (rawTimeFrame.col (detect_time_col rawTimeFrame none)) = none ∧
    plotBaseRun rawTimeFrame ⟨none, none, some 60, some 5⟩ =
      .ok { x := rawTimeFrame.col "Time", y := rawTimeFrame.col "cpu",
            usedDatetime := false, resampled := false, rolled := false,
            pngWritten := true } := by
  refine ⟨by decide, ?_⟩
  exact (C10_unparseable_time_nonfatal rawTimeFrame ⟨none, none, some 60, some 5⟩
    ⟨none, none, "type", "predicted", some 60, Agg.sum, some 5⟩ "cpu" "cpu"
    (by decide) rfl (by decide) rfl (by decide)).1

end PcpAap
